import Mathlib

/-!
Verification of the pyacexy stream multiplexer (`pyacexy/proxy.py`) against its
natural-language specification.

The development shallowly embeds the parts of the code the claims are about:

* query-string handling and the request validation of
  `AcexyProxy.handle_getstream` (lines 256-271);
* the upstream *open* call `AcexyProxy._fetch_stream_info` (lines 75-120),
  with the middleware reply as explicit data;
* the registry section of `handle_getstream` (lines 279-291);
* the producer loop `AcexyProxy._start_acestream_fetch`: the stale sweep
  (lines 168-190), the fan-out (lines 192-224), and the teardown
  (lines 232-252);
* two labelled transition systems for the concurrency claims: one for the
  registry-mutex / dedup protocol, one for the prepare-before-attach ordering.

Python dicts over string keys are modelled as association lists with
first-match lookup and replace-or-append update; asyncio's monotonic clock is
modelled as rational numbers; fallible code returns `Except`.
-/

/-- Dict lookup, first match wins (models `dict.get` / `MultiDict.get` on the
first occurrence of a key). -/
def dlookup {κ α : Type} [DecidableEq κ] : List (κ × α) → κ → Option α
  | [], _ => none
  | p :: ps, k => if p.1 = k then some p.2 else dlookup ps k

/-- Dict assignment `d[k] = v`: replace the first binding of `k`, or append a
fresh binding when `k` is absent. On duplicate-free lists this is exactly
Python dict assignment. -/
def dput {κ α : Type} [DecidableEq κ] : List (κ × α) → κ → α → List (κ × α)
  | [], k, v => [(k, v)]
  | p :: ps, k, v => if p.1 = k then (k, v) :: ps else p :: dput ps k v

theorem dlookup_dput_self {κ α : Type} [DecidableEq κ] (l : List (κ × α)) (k : κ) (v : α) :
    dlookup (dput l k v) k = some v := by
  induction l with
  | nil => simp [dput, dlookup]
  | cons p ps ih =>
    by_cases h : p.1 = k
    · simp [dput, h, dlookup]
    · simp [dput, h, dlookup, ih]

theorem dlookup_dput_ne {κ α : Type} [DecidableEq κ] (l : List (κ × α)) (k k₂ : κ) (v : α)
    (h : k₂ ≠ k) : dlookup (dput l k v) k₂ = dlookup l k₂ := by
  have hne : k ≠ k₂ := fun e => h e.symm
  induction l with
  | nil =>
    simp only [dput, dlookup]
    rw [if_neg hne]
  | cons p ps ih =>
    by_cases hp : p.1 = k
    · simp only [dput, if_pos hp, dlookup]
      rw [if_neg hne, if_neg (fun e => hne (hp.symm.trans e))]
    · simp only [dput, if_neg hp, dlookup]
      by_cases hq : p.1 = k₂
      · rw [if_pos hq, if_pos hq]
      · rw [if_neg hq, if_neg hq, ih]

/-- A downstream HTTP query string: ordered key/value pairs. -/
structure Query where
  pairs : List (String × String)

/-- `request.query.get(k, '')`: first value of `k`, or the empty string. -/
def Query.get (q : Query) (k : String) : String :=
  (dlookup q.pairs k).getD ""

/-- `k in request.query`: key presence. -/
def Query.has (q : Query) (k : String) : Bool :=
  (dlookup q.pairs k).isSome

/-- Outcome of the validation prefix of `handle_getstream`
(proxy.py lines 256-271): either a 400 reason or the content key. -/
def validateGetstream (q : Query) : Except String String :=
  let sid := q.get "id"
  let ih := q.get "infohash"
  if sid = "" ∧ ih = "" then .error "Missing id or infohash parameter"
  else if sid ≠ "" ∧ ih ≠ "" then .error "Only one of id or infohash can be specified"
  else if q.has "pid" then .error "PID parameter is not allowed"
  else .ok (if sid ≠ "" then sid else ih)

/-- Whether an `Except` value is an error. -/
def isErr {ε α : Type} : Except ε α → Bool
  | .error _ => true
  | .ok _ => false

/-- The spec-side validation predicate, following the claim words literally:
400 exactly when neither `id` nor `infohash` is **present**, both are
**present**, or a `pid` parameter is **present** (presence of the key in the
query, regardless of its value). -/
def specBadRequest (q : Query) : Bool :=
  (!q.has "id" && !q.has "infohash") || (q.has "id" && q.has "infohash") || q.has "pid"

/-- C6 counterexample input: `?id=&infohash=X` — both keys present, `id` empty. -/
def c6Query : Query := ⟨[("id", ""), ("infohash", "X")]⟩

/-- C6: the claim, read with "present" as key presence, is false on the code:
for `?id=&infohash=X` both `id` and `infohash` are present, so the claim
demands a 400, but the code tests Python truthiness (non-emptiness) and lets
the request through with key `X`. -/
theorem c6_counterexample :
    specBadRequest c6Query = true ∧ validateGetstream c6Query = .ok "X" := by
  constructor
  · rfl
  · rfl

/-- C6 (amended): the handler responds 400 exactly when validation fails,
where validation fails iff neither `id` nor `infohash` has a non-empty value,
both have non-empty values, or a `pid` key is present (any value); otherwise
validation passes and the key is the non-empty one of `id` and `infohash`,
with `id` preferred. -/
theorem c6_validation_iff (q : Query) :
    (isErr (validateGetstream q) = true ↔
      ((q.get "id" = "" ∧ q.get "infohash" = "") ∨
       (q.get "id" ≠ "" ∧ q.get "infohash" ≠ "") ∨
       q.has "pid" = true)) ∧
    (∀ k, validateGetstream q = .ok k →
      k = (if q.get "id" ≠ "" then q.get "id" else q.get "infohash")) := by
  constructor
  · unfold validateGetstream
    by_cases h1 : q.get "id" = "" ∧ q.get "infohash" = ""
    · simp [h1, isErr]
    · by_cases h2 : q.get "id" ≠ "" ∧ q.get "infohash" ≠ ""
      · simp [h1, h2, isErr]
      · by_cases h3 : q.has "pid"
        · simp [h1, h2, h3, isErr]
        · simp [h1, h2, h3, isErr]
  · intro k hk
    unfold validateGetstream at hk
    by_cases h1 : q.get "id" = "" ∧ q.get "infohash" = ""
    · simp [h1] at hk
    · by_cases h2 : q.get "id" ≠ "" ∧ q.get "infohash" ≠ ""
      · simp [h1, h2] at hk
      · by_cases h3 : q.has "pid"
        · simp [h1, h2, h3] at hk
        · simp [h1, h2, h3] at hk
          rw [← hk]
          simp [ite_not]

/-- C6 amended-theorem witness at a concrete passing query. -/
theorem c6_validation_iff_witness :
    ("A" : String) = (if (Query.get ⟨[("id", "A")]⟩ "id") ≠ "" then Query.get ⟨[("id", "A")]⟩ "id" else Query.get ⟨[("id", "A")]⟩ "infohash") :=
  (c6_validation_iff ⟨[("id", "A")]⟩).2 "A" rfl

/-- Upstream descriptor, from class `AceStream` (proxy.py lines 20-27). -/
structure AceStream where
  playback_url : String
  stat_url : String
  command_url : String
  stream_id : String

/-- The `response` object of the middleware JSON: `playback_url` and
`command_url` are accessed with `[]` (KeyError when absent), `stat_url` with
`.get(, '')`. -/
structure RespFields where
  playback_url : Option String
  command_url : Option String
  stat_url : Option String

/-- The reply of the middleware to the *open* request: HTTP status, the
optional top-level `error` field (a `some` with the empty string models a
present but falsy value), and the optional `response` object. -/
structure MWResponse where
  status : Nat
  error : Option String
  response : Option RespFields

/-- The `extra_params` dict of `handle_getstream` line 276: every downstream
query pair whose key is not `id`, `infohash` or `pid`, built dict-style so a
repeated key keeps its last value. -/
def extraParams (q : Query) : List (String × String) :=
  q.pairs.foldl
    (fun d p =>
      if p.1 = "id" ∨ p.1 = "infohash" ∨ p.1 = "pid" then d else dput d p.1 p.2)
    []

/-- The query-parameter dict sent by `_fetch_stream_info` (lines 84-91):
`extra_params` copied, then `format`, `pid` and exactly one of `id` /
`infohash` assigned.  The value is only used when `stream_id` or `infohash`
is non-empty (otherwise line 93 raises before the request is sent). -/
def openParams (sid ih pid : String) (extra : List (String × String)) :
    List (String × String) :=
  let p := dput (dput extra "format" "json") "pid" pid
  if sid ≠ "" then dput p "id" sid else dput p "infohash" ih

/-- Python truthiness of the JSON `error` field in the condition
`if 'error' in data and data['error']` (line 107): absent or empty is falsy. -/
def truthyError : Option String → Bool
  | some e => if e = "" then false else true
  | none => false

/-- `_fetch_stream_info` (proxy.py lines 75-120) with the middleware reply as
an explicit argument: raises when neither key is given, when the HTTP status
is not 200, when the `error` field is truthy, when `response` is absent, or
when a required field is missing; otherwise builds the `AceStream`
descriptor, `stat_url` defaulting to the empty string. -/
def fetchStreamInfo (sid ih pid : String) (extra : List (String × String))
    (mw : MWResponse) : Except String AceStream :=
  if sid = "" ∧ ih = "" then .error "Either id or infohash must be provided"
  else
    let _ := openParams sid ih pid extra
    if mw.status ≠ 200 then .error "AceStream middleware returned non-200"
    else if truthyError mw.error then .error "AceStream error"
    else
      match mw.response with
      | none => .error "Invalid response from AceStream middleware"
      | some r =>
        match r.playback_url with
        | none => .error "KeyError: playback_url"
        | some pu =>
          match r.command_url with
          | none => .error "KeyError: command_url"
          | some cu =>
            .ok ⟨pu, r.stat_url.getD "", cu, if sid ≠ "" then sid else ih⟩

theorem dlookup_extraParams_excluded (q : Query) (k : String)
    (hk : k = "id" ∨ k = "infohash" ∨ k = "pid") :
    dlookup (extraParams q) k = none := by
  suffices h : ∀ (ps : List (String × String)) (d : List (String × String)),
      dlookup d k = none →
      dlookup (ps.foldl (fun d p =>
        if p.1 = "id" ∨ p.1 = "infohash" ∨ p.1 = "pid" then d else dput d p.1 p.2) d) k = none by
    exact h q.pairs [] rfl
  intro ps
  induction ps with
  | nil => intro d hd; exact hd
  | cons p ps ih =>
    intro d hd
    by_cases hp : p.1 = "id" ∨ p.1 = "infohash" ∨ p.1 = "pid"
    · simpa [List.foldl, hp] using ih d hd
    · have hne : k ≠ p.1 := by
        intro e
        exact hp (e ▸ hk)
      have : dlookup (dput d p.1 p.2) k = none := by
        rw [dlookup_dput_ne d p.1 k p.2 hne, hd]
      simpa [List.foldl, hp] using ih _ this

theorem openParams_lookup_format (sid ih pid : String) (E : List (String × String)) :
    dlookup (openParams sid ih pid E) "format" = some "json" := by
  by_cases hs : sid ≠ ""
  · simp only [openParams, if_pos hs]
    rw [dlookup_dput_ne _ "id" "format" _ (by decide),
      dlookup_dput_ne _ "pid" "format" _ (by decide), dlookup_dput_self]
  · simp only [openParams, if_neg hs]
    rw [dlookup_dput_ne _ "infohash" "format" _ (by decide),
      dlookup_dput_ne _ "pid" "format" _ (by decide), dlookup_dput_self]

theorem openParams_lookup_pid (sid ih pid : String) (E : List (String × String)) :
    dlookup (openParams sid ih pid E) "pid" = some pid := by
  by_cases hs : sid ≠ ""
  · simp only [openParams, if_pos hs]
    rw [dlookup_dput_ne _ "id" "pid" _ (by decide), dlookup_dput_self]
  · simp only [openParams, if_neg hs]
    rw [dlookup_dput_ne _ "infohash" "pid" _ (by decide), dlookup_dput_self]

theorem openParams_lookup_other (sid ih pid : String) (E : List (String × String))
    (k : String) (h1 : k ≠ "id") (h2 : k ≠ "infohash") (h3 : k ≠ "pid")
    (h4 : k ≠ "format") : dlookup (openParams sid ih pid E) k = dlookup E k := by
  by_cases hs : sid ≠ ""
  · simp only [openParams, if_pos hs]
    rw [dlookup_dput_ne _ "id" k _ h1, dlookup_dput_ne _ "pid" k _ h3,
      dlookup_dput_ne _ "format" k _ h4]
  · simp only [openParams, if_neg hs]
    rw [dlookup_dput_ne _ "infohash" k _ h2, dlookup_dput_ne _ "pid" k _ h3,
      dlookup_dput_ne _ "format" k _ h4]

/-- C7 counterexample input: `?id=A&format=ts`. -/
def c7Query : Query := ⟨[("id", "A"), ("format", "ts")]⟩

/-- C7: the claim is false as stated — `format` is a downstream query
parameter other than `id`, `infohash` and `pid`, it is forwarded into
`extra_params`, yet the open-call query does not contain it with its
downstream value: line 85 unconditionally overwrites it with `json`. -/
theorem c7_counterexample :
    ("format", "ts") ∈ extraParams c7Query ∧
    dlookup (openParams "A" "" "p0" (extraParams c7Query)) "format" = some "json" ∧
    ("format", "ts") ∉ openParams "A" "" "p0" (extraParams c7Query) := by
  refine ⟨by decide, ?_, by decide⟩
  exact openParams_lookup_format "A" "" "p0" (extraParams c7Query)

/-- C7 (amended): for every open call issued from the handler, the request
query maps `format` to `json` (overriding any downstream `format` value),
`pid` to the fresh token, and exactly one of `id` / `infohash` to the key;
every downstream query parameter other than `id`, `infohash`, `pid` and
`format` is forwarded with its value; the call fails when the HTTP status is
not 200 or the JSON `error` field is truthy; and on success the descriptor
carries the required `playback_url` and `command_url`, with `stat_url`
defaulting to the empty string when absent. -/
theorem c7_open_call (q : Query) (pid : String) (mw : MWResponse) :
    dlookup (openParams (q.get "id") (q.get "infohash") pid (extraParams q)) "format" = some "json" ∧
    dlookup (openParams (q.get "id") (q.get "infohash") pid (extraParams q)) "pid" = some pid ∧
    (q.get "id" ≠ "" →
      dlookup (openParams (q.get "id") (q.get "infohash") pid (extraParams q)) "id" = some (q.get "id") ∧
      dlookup (openParams (q.get "id") (q.get "infohash") pid (extraParams q)) "infohash" = none) ∧
    (q.get "id" = "" →
      dlookup (openParams (q.get "id") (q.get "infohash") pid (extraParams q)) "infohash" = some (q.get "infohash") ∧
      dlookup (openParams (q.get "id") (q.get "infohash") pid (extraParams q)) "id" = none) ∧
    (∀ k, k ≠ "id" → k ≠ "infohash" → k ≠ "pid" → k ≠ "format" →
      dlookup (openParams (q.get "id") (q.get "infohash") pid (extraParams q)) k =
        dlookup (extraParams q) k) ∧
    (mw.status ≠ 200 →
      isErr (fetchStreamInfo (q.get "id") (q.get "infohash") pid (extraParams q) mw) = true) ∧
    (truthyError mw.error = true →
      isErr (fetchStreamInfo (q.get "id") (q.get "infohash") pid (extraParams q) mw) = true) ∧
    (∀ a, fetchStreamInfo (q.get "id") (q.get "infohash") pid (extraParams q) mw = .ok a →
      mw.status = 200 ∧ truthyError mw.error = false ∧
      ∃ r, mw.response = some r ∧
        r.playback_url = some a.playback_url ∧
        r.command_url = some a.command_url ∧
        a.stat_url = r.stat_url.getD "" ∧
        a.stream_id = (if q.get "id" ≠ "" then q.get "id" else q.get "infohash")) := by
  refine ⟨openParams_lookup_format _ _ _ _, openParams_lookup_pid _ _ _ _, ?_, ?_, ?_, ?_, ?_, ?_⟩
  · intro hs
    constructor
    · simp only [openParams, if_pos hs]
      rw [dlookup_dput_self]
    · simp only [openParams, if_pos hs]
      rw [dlookup_dput_ne _ "id" "infohash" _ (by decide),
        dlookup_dput_ne _ "pid" "infohash" _ (by decide),
        dlookup_dput_ne _ "format" "infohash" _ (by decide),
        dlookup_extraParams_excluded q "infohash" (Or.inr (Or.inl rfl))]
  · intro hs
    constructor
    · simp only [openParams, hs, if_neg (by simp : ¬("" : String) ≠ "")]
      rw [dlookup_dput_self]
    · simp only [openParams, hs, if_neg (by simp : ¬("" : String) ≠ "")]
      rw [dlookup_dput_ne _ "infohash" "id" _ (by decide),
        dlookup_dput_ne _ "pid" "id" _ (by decide),
        dlookup_dput_ne _ "format" "id" _ (by decide),
        dlookup_extraParams_excluded q "id" (Or.inl rfl)]
  · intro k h1 h2 h3 h4
    exact openParams_lookup_other _ _ _ _ k h1 h2 h3 h4
  · intro hst
    unfold fetchStreamInfo
    by_cases h0 : q.get "id" = "" ∧ q.get "infohash" = ""
    · simp [h0, isErr]
    · simp [h0, hst, isErr]
  · intro herr
    unfold fetchStreamInfo
    by_cases h0 : q.get "id" = "" ∧ q.get "infohash" = ""
    · simp [h0, isErr]
    · by_cases hst : mw.status ≠ 200
      · simp [h0, hst, isErr]
      · simp [h0, hst, herr, isErr]
  · intro a ha
    unfold fetchStreamInfo at ha
    by_cases h0 : q.get "id" = "" ∧ q.get "infohash" = ""
    · simp [h0] at ha
    · by_cases hst : mw.status ≠ 200
      · simp [h0, hst] at ha
      · by_cases herr : truthyError mw.error = true
        · simp [h0, hst, herr] at ha
        · match hr : mw.response with
          | none => simp [h0, hst, herr, hr] at ha
          | some r =>
            match hpu : r.playback_url with
            | none => simp [h0, hst, herr, hr, hpu] at ha
            | some pu =>
              match hcu : r.command_url with
              | none => simp [h0, hst, herr, hr, hpu, hcu] at ha
              | some cu =>
                simp only [h0, hst, herr, hr, hpu, hcu, if_neg, Bool.not_eq_true] at ha
                refine ⟨by omega, by simpa using herr, r, rfl, ?_⟩
                simp [h0, hst, herr, hr, hpu, hcu] at ha
                rw [← ha]
                simp [hpu, hcu, ite_not]

/-- C7 witness inputs. -/
def c7wQ : Query := ⟨[("id", "A"), ("x", "1")]⟩

def c7mwOk : MWResponse := ⟨200, none, some ⟨some "P", some "C", none⟩⟩

def c7mwBad : MWResponse := ⟨500, none, none⟩

/-- C7 amended-theorem witness at concrete inputs. -/
theorem c7_open_call_witness :
    dlookup (openParams "A" "" "p0" (extraParams c7wQ)) "id" = some "A" ∧
    isErr (fetchStreamInfo "A" "" "p0" (extraParams c7wQ) c7mwBad) = true ∧
    c7mwOk.status = 200 := by
  refine ⟨((c7_open_call c7wQ "p0" c7mwOk).2.2.1 (by decide)).1, ?_, ?_⟩
  · exact (c7_open_call c7wQ "p0" c7mwBad).2.2.2.2.2.1 (by decide)
  · exact ((c7_open_call c7wQ "p0" c7mwOk).2.2.2.2.2.2.2 ⟨"P", "", "C", "A"⟩ (by rfl)).1

/-- The session registry `self.streams`, keyed by content key; sessions are
identified by numeric ids. -/
def SRegistry : Type := String → Option Nat

/-- Outcome of the registry section of `handle_getstream` (lines 256-291). -/
inductive GetstreamReply
  | badRequest (reason : String)
  | openFailed (reason : String)
  | attached (sid : Nat) (isNew : Bool)

/-- HTTP status of each outcome: 400 for validation failure (lines 261, 264,
268), 500 for an *open* failure (line 288), 200 once streaming starts. -/
def replyStatus : GetstreamReply → Nat
  | .badRequest _ => 400
  | .openFailed _ => 500
  | .attached _ _ => 200

/-- The validation plus registry section of `handle_getstream`
(lines 256-291), with the outcome of `_fetch_stream_info` and the fresh
session id as arguments: validate, then under the registry mutex either
reuse the registered session, or open and insert a new one; an open failure
returns 500 and leaves the registry untouched. -/
def handleAttach (reg : SRegistry) (q : Query) (openRes : Except String AceStream)
    (fresh : Nat) : GetstreamReply × SRegistry :=
  match validateGetstream q with
  | .error e => (.badRequest e, reg)
  | .ok key =>
    match reg key with
    | some sid => (.attached sid false, reg)
    | none =>
      match openRes with
      | .error e => (.openFailed ("Failed to start stream: " ++ e), reg)
      | .ok _ => (.attached fresh true, fun k => if k = key then some fresh else reg k)

/-- C8: when the upstream *open* fails on a registry miss, the handler
replies 500, the registry is unchanged at every key (in particular no
session is registered under the requested key), and the reply is not an
attach — so no producer task exists for this request and the *stop* command
(dispatched only from producer teardown) is never issued for it. -/
theorem c8_open_failure (reg : SRegistry) (q : Query) (key e : String) (fresh : Nat)
    (hv : validateGetstream q = .ok key) (hmiss : reg key = none) :
    replyStatus (handleAttach reg q (.error e) fresh).1 = 500 ∧
    (handleAttach reg q (.error e) fresh).2 = reg ∧
    (handleAttach reg q (.error e) fresh).2 key = none ∧
    ∀ sid b, (handleAttach reg q (.error e) fresh).1 ≠ .attached sid b := by
  have h1 : handleAttach reg q (.error e) fresh
      = (.openFailed ("Failed to start stream: " ++ e), reg) := by
    unfold handleAttach
    rw [hv]
    simp only [hmiss]
  rw [h1]
  exact ⟨rfl, rfl, hmiss, fun sid b h => GetstreamReply.noConfusion h⟩

/-- C8 witness: a concrete miss with a failing open. -/
theorem c8_open_failure_witness :
    replyStatus (handleAttach (fun _ => none) ⟨[("id", "A")]⟩ (.error "nope") 0).1 = 500 ∧
    (handleAttach (fun _ => none) ⟨[("id", "A")]⟩ (.error "nope") 0).2 = (fun _ => none) ∧
    (handleAttach (fun _ => none) ⟨[("id", "A")]⟩ (.error "nope") 0).2 "A" = none ∧
    ∀ sid b, (handleAttach (fun _ => none) ⟨[("id", "A")]⟩ (.error "nope") 0).1 ≠ .attached sid b :=
  c8_open_failure (fun _ => none) ⟨[("id", "A")]⟩ "A" "nope" 0 (by rfl) rfl

/-- The registry-removal step of producer teardown (proxy.py lines 249-252):
`if ongoing.stream_id in self.streams: del self.streams[ongoing.stream_id]`.
The code tests only key presence; it does not compare the mapped session
with the producer's own session. -/
def removeEntry (key : String) (reg : SRegistry) : SRegistry :=
  if (reg key).isSome then fun k => if k = key then none else reg k else reg

/-- Producer teardown state (the `finally` block of `_start_acestream_fetch`,
lines 232-252): program counter, remaining subscriber set, the done latch,
the count of dispatched *stop* commands, and the registry. -/
structure TDState where
  pc : Nat
  clients : List Nat
  done : Bool
  stops : Nat
  reg : SRegistry

/-- One step of the teardown block, in source order: clear the remaining
clients (lines 234-240), dispatch *stop* via `_close_stream` (line 243), set
`done` (line 246), then remove the registry entry under the registry mutex
(lines 249-252). -/
def tdStep (key : String) (s : TDState) : TDState :=
  match s.pc with
  | 0 => { s with clients := [], pc := 1 }
  | 1 => { s with stops := s.stops + 1, pc := 2 }
  | 2 => { s with done := true, pc := 3 }
  | 3 => { s with reg := removeEntry key s.reg, pc := 4 }
  | _ => s

/-- Initial teardown state: remaining subscribers `cs`, nothing yet done. -/
def tdInit (cs : List Nat) (reg : SRegistry) : TDState :=
  { pc := 0, clients := cs, done := false, stops := 0, reg := reg }

/-- C2 counterexample: start teardown of session 5 for key `K` with the
registry still mapping `K` to 5.  After three steps `done` has fired, yet
the registry still maps `K` to the very same session — not absent, not a
newer session.  So the removal does not happen strictly before `done` is
set; the code (lines 246-252) sets `done` first. -/
theorem c2_counterexample :
    ((tdStep "K")^[3] (tdInit [7] (fun k => if k = "K" then some 5 else none))).done = true ∧
    ((tdStep "K")^[3] (tdInit [7] (fun k => if k = "K" then some 5 else none))).reg "K" = some 5 := by
  constructor
  · rfl
  · rfl

/-- C2 (amended): in producer teardown, `done` is set strictly before the
registry entry is removed: after the `done`-setting step the registry is
still exactly what it was, and only the following step erases the key.
Once teardown completes, the key is absent from the registry. -/
theorem c2_teardown_order (key : String) (cs : List Nat) (reg : SRegistry) :
    (((tdStep key)^[3] (tdInit cs reg)).done = true ∧
     ((tdStep key)^[3] (tdInit cs reg)).reg = reg) ∧
    ((tdStep key)^[2] (tdInit cs reg)).done = false ∧
    ((tdStep key)^[4] (tdInit cs reg)).reg key = none := by
  refine ⟨⟨rfl, rfl⟩, rfl, ?_⟩
  show (removeEntry key reg) key = none
  unfold removeEntry
  by_cases h : (reg key).isSome
  · simp [h]
  · rw [if_neg h]
    exact Option.not_isSome_iff_eq_none.mp h

/-- C3 counterexample registry: key `K` maps to session 99, not to the
tearing-down producer's session 1. -/
def c3Reg : SRegistry := fun k => if k = "K" then some 99 else none

/-- C3: the claim is false — the teardown removal (lines 250-251) tests only
presence of the key, so a producer of session 1 erases an entry that maps to
the different session 99 instead of leaving it unchanged. -/
theorem c3_counterexample :
    c3Reg "K" = some 99 ∧ (99 ≠ 1) ∧ removeEntry "K" c3Reg "K" = none := by
  refine ⟨rfl, by decide, rfl⟩

/-- C3 (amended): during teardown the producer removes the registry entry
for its key whenever the key is present, regardless of which session the
entry maps to (entries of a newer session for the same key are also
deleted); when the key is absent the registry is untouched; entries of other
keys are never modified. -/
theorem c3_remove_iff_present (key : String) (reg : SRegistry) :
    ((reg key).isSome = true → removeEntry key reg key = none) ∧
    (reg key = none → removeEntry key reg = reg) ∧
    (∀ k, k ≠ key → removeEntry key reg k = reg k) := by
  refine ⟨?_, ?_, ?_⟩
  · intro h
    unfold removeEntry
    simp [h]
  · intro h
    unfold removeEntry
    simp [h]
  · intro k hk
    unfold removeEntry
    by_cases h : (reg key).isSome
    · simp [h, hk]
    · simp [h]

/-- C3 amended-theorem witness at the concrete counterexample registry. -/
theorem c3_remove_iff_present_witness :
    removeEntry "K" c3Reg "K" = none ∧ removeEntry "K" c3Reg "J" = c3Reg "J" :=
  ⟨(c3_remove_iff_present "K" c3Reg).1 (by rfl),
   (c3_remove_iff_present "K" c3Reg).2.2 "J" (by decide)⟩

/-- A subscriber, identified by the Python object id of its response. -/
abbrev Client := Nat

/-- Per-session mutable state of `OngoingStream` as used by the producer
loop: the subscriber set (`clients`, an insertion-ordered set), the
`client_last_write` dict, the `first_chunk` latch, and the producer-local
`last_cleanup` clock. -/
structure SessState where
  clients : List Client
  lastWrite : List (Client × ℚ)
  firstChunk : Bool
  lastCleanup : ℚ

/-- `set.add`: append if absent. -/
def addClient (c : Client) (cs : List Client) : List Client :=
  if c ∈ cs then cs else cs ++ [c]

/-- Handler-side operations that interleave with the producer between its
locked regions: attach (line 307: `ongoing.clients.add(response)`, which
records no lastWrite stamp), the readiness-timeout discard (line 329, which
leaves `client_last_write` untouched), and the final handler cleanup
(lines 348-350: discard and pop the stamp). -/
inductive HOp
  | attach (c : Client)
  | discardOnly (c : Client)
  | discardPop (c : Client)

def applyHOp (s : SessState) : HOp → SessState
  | .attach c => { s with clients := addClient c s.clients }
  | .discardOnly c => { s with clients := s.clients.filter (fun x => decide (x ≠ c)) }
  | .discardPop c =>
    { s with clients := s.clients.filter (fun x => decide (x ≠ c)),
             lastWrite := s.lastWrite.filter (fun p => decide (p.1 ≠ c)) }

def applyHOps (ops : List HOp) (s : SessState) : SessState :=
  ops.foldl applyHOp s

/-- The stale set computed by a sweep at clock `t` (lines 173-179): clients
whose last successful write stamp — defaulting to 0 when no write was ever
recorded — lies more than 30 seconds in the past. -/
def staleOf (t : ℚ) (cs : List Client) (lw : List (Client × ℚ)) : List Client :=
  cs.filter (fun c => decide (30 < t - ((dlookup lw c).getD 0)))

/-- The gated stale sweep (lines 168-190): it runs only when strictly more
than 15 seconds have passed since `last_cleanup`; it then resets
`last_cleanup` to the current clock, evicts every stale client and pops its
stamp. -/
def sweepStale (t : ℚ) (s : SessState) : SessState :=
  if 15 < t - s.lastCleanup then
    { clients := s.clients.filter
        (fun c => decide (¬ 30 < t - ((dlookup s.lastWrite c).getD 0))),
      lastWrite := s.lastWrite.filter
        (fun p => decide (p.1 ∉ staleOf t s.clients s.lastWrite)),
      firstChunk := s.firstChunk,
      lastCleanup := t }
  else s

/-- One fan-out iteration for chunk number `n` at clock `t` (lines 192-224):
write the chunk to every client in the set; a successful write refreshes the
client's stamp and, when this is chunk number 1, sets `first_chunk`; every
failed client is evicted and its stamp popped. -/
def fanout (n : Nat) (t : ℚ) (ok : Client → Bool) (s : SessState) : SessState :=
  let succ := s.clients.filter ok
  let dead := s.clients.filter (fun c => !(ok c))
  { clients := succ,
    lastWrite := (succ.foldl (fun lw c => dput lw c t) s.lastWrite).filter
      (fun p => decide (p.1 ∉ dead)),
    firstChunk := s.firstChunk || (decide (n = 1) && !succ.isEmpty),
    lastCleanup := s.lastCleanup }

/-- The environment of one loop iteration: the clock at the sweep check
(line 169), the clock at the fan-out (line 195), the handler operations that
interleave before the sweep and between the sweep and the fan-out (the
producer holds the session lock inside each block, so attaches cannot occur
within one), and which subscriber writes succeed for this chunk. -/
structure ChunkCtx where
  t : ℚ
  tw : ℚ
  pre : List HOp
  mid : List HOp
  ok : Client → Bool

/-- The chunk loop of `_start_acestream_fetch` (lines 160-224), starting at
chunk number `n`: per chunk, interleaved handler ops, gated sweep, more
handler ops, fan-out, and the empty-set break (line 222). -/
def runProd (n : Nat) (l : List ChunkCtx) (s : SessState) : SessState :=
  match l with
  | [] => s
  | ctx :: rest =>
    let s4 := fanout n ctx.tw ctx.ok (applyHOps ctx.mid (sweepStale ctx.t (applyHOps ctx.pre s)))
    if s4.clients.isEmpty then s4 else runProd (n + 1) rest s4

/-- Observer: whether some write to some subscriber succeeds anywhere in the
run (same recursion structure as `runProd`). -/
def runSucceeded (n : Nat) (l : List ChunkCtx) (s : SessState) : Bool :=
  match l with
  | [] => false
  | ctx :: rest =>
    let s3 := applyHOps ctx.mid (sweepStale ctx.t (applyHOps ctx.pre s))
    let s4 := fanout n ctx.tw ctx.ok s3
    !(s3.clients.filter ctx.ok).isEmpty ||
      (if s4.clients.isEmpty then false else runSucceeded (n + 1) rest s4)

theorem applyHOp_firstChunk (s : SessState) (op : HOp) :
    (applyHOp s op).firstChunk = s.firstChunk := by
  cases op <;> rfl

theorem applyHOps_firstChunk (ops : List HOp) (s : SessState) :
    (applyHOps ops s).firstChunk = s.firstChunk := by
  induction ops generalizing s with
  | nil => rfl
  | cons op ops ih =>
    show (applyHOps ops (applyHOp s op)).firstChunk = s.firstChunk
    rw [ih, applyHOp_firstChunk]

theorem sweepStale_firstChunk (t : ℚ) (s : SessState) :
    (sweepStale t s).firstChunk = s.firstChunk := by
  unfold sweepStale
  by_cases h : 15 < t - s.lastCleanup
  · simp [h]
  · simp [h]

theorem runProd_firstChunk_eq (l : List ChunkCtx) :
    ∀ (n : Nat) (s : SessState), 1 ≤ n → (2 ≤ n → s.firstChunk = true) →
    (runProd n l s).firstChunk = (s.firstChunk || runSucceeded n l s) := by
  induction l with
  | nil =>
    intro n s h1 h2
    simp [runProd, runSucceeded]
  | cons ctx rest ih =>
    intro n s h1 h2
    show (let s4 := fanout n ctx.tw ctx.ok (applyHOps ctx.mid (sweepStale ctx.t (applyHOps ctx.pre s)))
          if s4.clients.isEmpty then s4 else runProd (n + 1) rest s4).firstChunk
        = (s.firstChunk ||
            (let s3 := applyHOps ctx.mid (sweepStale ctx.t (applyHOps ctx.pre s))
             let s4 := fanout n ctx.tw ctx.ok s3
             !(s3.clients.filter ctx.ok).isEmpty ||
               (if s4.clients.isEmpty then false else runSucceeded (n + 1) rest s4)))
    set s3 := applyHOps ctx.mid (sweepStale ctx.t (applyHOps ctx.pre s)) with hs3
    have hfc3 : s3.firstChunk = s.firstChunk := by
      rw [hs3, applyHOps_firstChunk, sweepStale_firstChunk, applyHOps_firstChunk]
    set s4 := fanout n ctx.tw ctx.ok s3 with hs4
    have hfc4 : s4.firstChunk
        = (s.firstChunk || (decide (n = 1) && !(s3.clients.filter ctx.ok).isEmpty)) := by
      rw [hs4]
      show (s3.firstChunk || (decide (n = 1) && !(s3.clients.filter ctx.ok).isEmpty))
          = (s.firstChunk || (decide (n = 1) && !(s3.clients.filter ctx.ok).isEmpty))
      rw [hfc3]
    have hcl4 : s4.clients = s3.clients.filter ctx.ok := rfl
    by_cases hbe : s4.clients.isEmpty
    · simp only [hbe, if_pos]
      rw [hfc4]
      rcases Nat.lt_or_ge n 2 with hn | hn
      · have : n = 1 := by omega
        subst this
        simp
      · rw [h2 hn]
        simp
    · have hemp : (List.filter ctx.ok s3.clients).isEmpty = false := by
        have h5 : s4.clients.isEmpty = false := by simpa using hbe
        simpa [hcl4] using h5
      have hfc4t : s4.firstChunk = true := by
        rw [hfc4, hemp]
        rcases Nat.lt_or_ge n 2 with hn | hn
        · have hn1 : n = 1 := by omega
          subst hn1
          simp
        · rw [h2 hn]
          simp
      have hrec := ih (n + 1) s4 (by omega) (fun _ => hfc4t)
      simp only [hbe, if_neg, Bool.false_eq_true, not_false_eq_true]
      rw [hrec, hfc4t, hemp]
      simp

/-- C4: starting a producer run with `first_chunk` unset, `first_chunk` is
set at the end of the run exactly when some write to some subscriber
succeeded during the run — whatever handler attaches, detaches and sweeps
interleave, and whichever chunk carries the first success.  In particular it
is never set before at least one subscriber write has succeeded.  (The
guard `chunk_count == 1` at line 202 is not a restriction in context: if no
chunk-1 write succeeds, every client of chunk 1 has failed and been evicted,
so the loop breaks at line 222-224 before any later chunk is fanned out.) -/
theorem c4_first_chunk (l : List ChunkCtx) (s : SessState) (h : s.firstChunk = false) :
    (runProd 1 l s).firstChunk = runSucceeded 1 l s := by
  have := runProd_firstChunk_eq l 1 s (by omega) (fun h2 => by omega)
  rw [h] at this
  simpa using this

/-- C4 witness: one subscriber, one chunk, the write succeeds. -/
theorem c4_first_chunk_witness :
    (runProd 1 [⟨0, 0, [], [], fun _ => true⟩] ⟨[1], [], false, 0⟩).firstChunk
      = runSucceeded 1 [⟨0, 0, [], [], fun _ => true⟩] ⟨[1], [], false, 0⟩ :=
  c4_first_chunk [⟨0, 0, [], [], fun _ => true⟩] ⟨[1], [], false, 0⟩ rfl

/-- The sweep gate of the chunk loop (lines 169-171): given the clock value
at each chunk, the clock values at which a sweep actually runs
(`current_time - last_cleanup > 15`, after which `last_cleanup` is reset to
the current clock). -/
def sweepTimes (lc : ℚ) : List ℚ → List ℚ
  | [] => []
  | t :: ts => if 15 < t - lc then t :: sweepTimes t ts else sweepTimes lc ts

theorem mem_sweepTimes (ts : List ℚ) :
    ∀ (lc u : ℚ), u ∈ sweepTimes lc ts → 15 < u - lc := by
  induction ts with
  | nil =>
    intro lc u h
    simp [sweepTimes] at h
  | cons t ts ih =>
    intro lc u h
    unfold sweepTimes at h
    by_cases hg : 15 < t - lc
    · rw [if_pos hg] at h
      rcases List.mem_cons.mp h with he | hm
      · rw [he]
        exact hg
      · have h2 := ih t u hm
        linarith
    · rw [if_neg hg] at h
      exact ih lc u h

/-- C5: (1) the stale sweep runs at most once per 15 seconds of wall clock:
any two clocks at which a sweep runs are more than 15 seconds apart; (2) a
sweep at clock `t` evicts exactly the subscribers whose recorded last
successful write `w` satisfies `t - w > 30`: such a subscriber is in the
stale set and out of the surviving subscriber set, while a subscriber
written within the last 30 seconds is kept. -/
theorem c5_stale_sweep :
    (∀ (lc : ℚ) (ts : List ℚ),
      List.Pairwise (fun a b => 15 < b - a) (sweepTimes lc ts)) ∧
    (∀ (t : ℚ) (s : SessState) (c : Client) (w : ℚ),
      15 < t - s.lastCleanup → dlookup s.lastWrite c = some w → c ∈ s.clients →
      ((c ∈ staleOf t s.clients s.lastWrite ↔ 30 < t - w) ∧
       (c ∈ (sweepStale t s).clients ↔ ¬ 30 < t - w))) := by
  constructor
  · intro lc ts
    induction ts generalizing lc with
    | nil => exact List.Pairwise.nil
    | cons t ts ih =>
      unfold sweepTimes
      by_cases hg : 15 < t - lc
      · rw [if_pos hg]
        exact List.Pairwise.cons (fun u hu => mem_sweepTimes ts t u hu) (ih t)
      · rw [if_neg hg]
        exact ih lc
  · intro t s c w hg hw hc
    constructor
    · unfold staleOf
      rw [List.mem_filter]
      rw [hw]
      simp [hc]
    · unfold sweepStale
      rw [if_pos hg]
      show c ∈ s.clients.filter
        (fun c => decide (¬ 30 < t - ((dlookup s.lastWrite c).getD 0))) ↔ _
      rw [List.mem_filter]
      rw [hw]
      simp [hc]

/-- C5 witness: sweeps at clocks 16 and 40 from `last_cleanup = 0` are more
than 15 s apart, and at clock 40 a subscriber last written at 5 is evicted
while one written at 20 is kept. -/
theorem c5_stale_sweep_witness :
    List.Pairwise (fun a b => 15 < b - a) (sweepTimes 0 [16, 20, 40]) ∧
    (1 ∈ staleOf 40 [1, 2] [(1, 5), (2, 20)] ↔ 30 < (40 : ℚ) - 5) ∧
    (2 ∈ (sweepStale 40 ⟨[1, 2], [(1, 5), (2, 20)], false, 0⟩).clients ↔
      ¬ 30 < (40 : ℚ) - 20) :=
  ⟨c5_stale_sweep.1 0 [16, 20, 40],
   (c5_stale_sweep.2 40 ⟨[1, 2], [(1, 5), (2, 20)], false, 0⟩ 1 5 (by norm_num)
     (by rfl) (by decide)).1,
   (c5_stale_sweep.2 40 ⟨[1, 2], [(1, 5), (2, 20)], false, 0⟩ 2 20 (by norm_num)
     (by rfl) (by decide)).2⟩

/-- C10: attaching a subscriber (line 307) records no lastWrite stamp — the
`client_last_write` dict is untouched — and a sweep at clock `t` treats a
subscriber with no recorded write as last written at the default 0
(line 175), so whenever `t > 30` such a subscriber is in the stale set and
is evicted by that sweep, no matter when it attached.  (The clock is the
event-loop monotonic clock; every sweep after the first 30 seconds of clock
time satisfies `t > 30`.) -/
theorem c10_fresh_subscriber_evicted :
    (∀ (s : SessState) (c : Client), (applyHOp s (.attach c)).lastWrite = s.lastWrite) ∧
    (∀ (t : ℚ) (cs : List Client) (lw : List (Client × ℚ)) (c : Client),
      dlookup lw c = none → c ∈ cs →
      (c ∈ staleOf t cs lw ↔ 30 < t - 0)) := by
  constructor
  · intro s c
    rfl
  · intro t cs lw c hn hc
    unfold staleOf
    rw [List.mem_filter, hn]
    simp [hc]

/-- C10 witness: a subscriber that attached at clock 39 with no recorded
write is evicted by the sweep at clock 40. -/
theorem c10_fresh_subscriber_evicted_witness :
    (applyHOp ⟨[1], [(1, 39)], true, 25⟩ (.attach 7)).lastWrite = [(1, 39)] ∧
    (7 ∈ staleOf 40 [1, 7] [(1, 39)] ↔ 30 < (40 : ℚ) - 0) :=
  ⟨c10_fresh_subscriber_evicted.1 ⟨[1], [(1, 39)], true, 25⟩ 7,
   c10_fresh_subscriber_evicted.2 40 [1, 7] [(1, 39)] 7 (by rfl) (by decide)⟩

/-- Phase of one `handle_getstream` coroutine inside the registry section
(lines 279-291): before the `async with self.streams_lock` block, holding
the lock and about to look up, holding the lock with the
`_fetch_stream_info` await in flight (line 283), failed (500 path, line
288), or holding a session (reused or freshly inserted). -/
inductive HPhase
  | idle
  | locked
  | opening
  | failed
  | got (sid : Nat)
  deriving DecidableEq

/-- Global state of the registry protocol: who holds `streams_lock`, each
handler's phase, the `self.streams` registry, and the next fresh session id. -/
structure AState where
  lock : Option Nat
  phase : Nat → HPhase
  reg : String → Option Nat
  nextSid : Nat

/-- Transition labels of the registry protocol. -/
inductive ALabel
  | acquire (h : Nat)
  | hit (h : Nat) (sid : Nat)
  | missOpen (h : Nat)
  | openOk (h : Nat)
  | openFail (h : Nat)

/-- Small-step semantics of the registry section (lines 279-291), with
`keyOf h` the key requested by handler `h`.  The lookup (line 280), the
*open* await (line 283) and the insertion (line 285) all require holding
`streams_lock`; the lock is released when the block exits (reuse at line
291, success at line 285, or the 500 return at line 288). -/
inductive AStep (keyOf : Nat → String) : ALabel → AState → AState → Prop
  | acquire (h : Nat) (s : AState) :
      s.lock = none → s.phase h = .idle →
      AStep keyOf (.acquire h) s
        { s with lock := some h, phase := Function.update s.phase h .locked }
  | hit (h sid : Nat) (s : AState) :
      s.lock = some h → s.phase h = .locked → s.reg (keyOf h) = some sid →
      AStep keyOf (.hit h sid) s
        { s with lock := none, phase := Function.update s.phase h (.got sid) }
  | missOpen (h : Nat) (s : AState) :
      s.lock = some h → s.phase h = .locked → s.reg (keyOf h) = none →
      AStep keyOf (.missOpen h) s
        { s with phase := Function.update s.phase h .opening }
  | openOk (h : Nat) (s : AState) :
      s.lock = some h → s.phase h = .opening →
      AStep keyOf (.openOk h) s
        { lock := none,
          phase := Function.update s.phase h (.got s.nextSid),
          reg := fun k => if k = keyOf h then some s.nextSid else s.reg k,
          nextSid := s.nextSid + 1 }
  | openFail (h : Nat) (s : AState) :
      s.lock = some h → s.phase h = .opening →
      AStep keyOf (.openFail h) s
        { s with lock := none, phase := Function.update s.phase h .failed }

/-- The idle initial state: lock free, all handlers idle, registry empty. -/
def AInit : AState :=
  { lock := none, phase := fun _ => .idle, reg := fun _ => none, nextSid := 0 }

/-- Reachability of the registry protocol from the initial state. -/
def AReach (keyOf : Nat → String) (s : AState) : Prop :=
  Relation.ReflTransGen (fun a b => ∃ l, AStep keyOf l a b) AInit s

theorem astep_opening_holds_lock (keyOf : Nat → String) (s : AState)
    (hr : AReach keyOf s) :
    ∀ h, s.phase h = .opening → s.lock = some h := by
  induction hr with
  | refl =>
    intro h hph
    exact absurd hph (by simp [AInit])
  | tail hst hstep ih =>
    rcases hstep with ⟨l, hstep⟩
    cases hstep with
    | acquire h2 s2 hl hp =>
      intro h hph
      by_cases he : h = h2
      · subst he
        simp [Function.update] at hph
      · simp only [Function.update, he] at hph
        have := ih h (by simpa [Function.update, he] using hph)
        rw [hl] at this
        exact absurd this (by simp)
    | hit h2 sid s2 hl hp hg =>
      intro h hph
      by_cases he : h = h2
      · subst he
        simp [Function.update] at hph
      · have := ih h (by simpa [Function.update, he] using hph)
        rw [hl] at this
        have : h = h2 := by
          injection this
          omega
        exact absurd this he
    | missOpen h2 s2 hl hp hg =>
      intro h hph
      by_cases he : h = h2
      · subst he
        exact hl
      · exact ih h (by simpa [Function.update, he] using hph)
    | openOk h2 s2 hl hp =>
      intro h hph
      by_cases he : h = h2
      · subst he
        simp [Function.update] at hph
      · have := ih h (by simpa [Function.update, he] using hph)
        rw [hl] at this
        have : h = h2 := by
          injection this
          omega
        exact absurd this he
    | openFail h2 s2 hl hp =>
      intro h hph
      by_cases he : h = h2
      · subst he
        simp [Function.update] at hph
      · have := ih h (by simpa [Function.update, he] using hph)
        rw [hl] at this
        have : h = h2 := by
          injection this
          omega
        exact absurd this he

/-- C1: in every reachable state of the registry protocol, (1) a handler
whose *open* call is in flight holds the registry mutex, so (2) at most one
*open* is in flight at any instant; (3) from a state where a handler holds
the lock and the registry already maps its key to a session, no step takes
that handler into the opening phase — its only exit from the critical
section is to adopt the registered session, leaving the registry unchanged
(so at most one session is registered per key and a second concurrent
request reuses it instead of calling *open*); and (4) the lookup-miss step
that starts an *open* requires holding the mutex on a key with no
registered session. -/
theorem c1_dedup (keyOf : Nat → String) (s : AState) (hr : AReach keyOf s) :
    (∀ h, s.phase h = .opening → s.lock = some h) ∧
    (∀ h₁ h₂, s.phase h₁ = .opening → s.phase h₂ = .opening → h₁ = h₂) ∧
    (∀ l s2 h sid, AStep keyOf l s s2 → s.phase h = .locked →
      s.reg (keyOf h) = some sid →
      s2.phase h ≠ .opening ∧
      (s2.phase h ≠ .locked → s2.phase h = .got sid ∧ s2.reg = s.reg)) ∧
    (∀ h s2, AStep keyOf (.missOpen h) s s2 →
      s.lock = some h ∧ s.reg (keyOf h) = none) := by
  refine ⟨astep_opening_holds_lock keyOf s hr, ?_, ?_, ?_⟩
  · intro h₁ h₂ hp1 hp2
    have l1 := astep_opening_holds_lock keyOf s hr h₁ hp1
    have l2 := astep_opening_holds_lock keyOf s hr h₂ hp2
    rw [l1] at l2
    injection l2
  · intro l s2 h sid hstep hlocked hreg
    cases hstep with
    | acquire h2 s hl hp =>
      by_cases he : h = h2
      · subst he
        rw [hlocked] at hp
        exact absurd hp (by simp)
      · constructor
        · show Function.update s.phase h2 .locked h ≠ .opening
          simp only [Function.update, he]
          rw [hlocked]
          simp
        · intro hnl
          exact absurd (by simpa [Function.update, he] using hlocked) hnl
    | hit h2 sid2 s hl hp hg =>
      by_cases he : h = h2
      · subst he
        rw [hreg] at hg
        have hsid : sid2 = sid := by
          injection hg with h3
          exact h3.symm
        subst hsid
        constructor
        · simp [Function.update]
        · intro _
          constructor
          · simp [Function.update]
          · rfl
      · constructor
        · simp only [Function.update, dif_neg he]
          rw [hlocked]
          simp
        · intro hnl
          exact absurd (by simpa [Function.update, he] using hlocked) hnl
    | missOpen h2 s hl hp hg =>
      by_cases he : h = h2
      · subst he
        rw [hreg] at hg
        exact absurd hg (by simp)
      · constructor
        · simp only [Function.update, dif_neg he]
          rw [hlocked]
          simp
        · intro hnl
          exact absurd (by simpa [Function.update, he] using hlocked) hnl
    | openOk h2 s hl hp =>
      by_cases he : h = h2
      · subst he
        rw [hlocked] at hp
        exact absurd hp (by simp)
      · constructor
        · simp only [Function.update, dif_neg he]
          rw [hlocked]
          simp
        · intro hnl
          exact absurd (by simpa [Function.update, he] using hlocked) hnl
    | openFail h2 s hl hp =>
      by_cases he : h = h2
      · subst he
        rw [hlocked] at hp
        exact absurd hp (by simp)
      · constructor
        · simp only [Function.update, dif_neg he]
          rw [hlocked]
          simp
        · intro hnl
          exact absurd (by simpa [Function.update, he] using hlocked) hnl
  · intro h s2 hstep
    cases hstep with
    | missOpen h2 s hl hp hg => exact ⟨hl, hg⟩

/-- A two-step concrete trace for the C1 witness: handler 0 acquires the
lock, misses, and starts an *open*. -/
def c1KeyOf : Nat → String := fun _ => "K"

def c1S1 : AState :=
  { AInit with lock := some 0, phase := Function.update AInit.phase 0 .locked }

def c1S2 : AState :=
  { c1S1 with phase := Function.update c1S1.phase 0 .opening }

/-- C1 witness: in the concrete reachable state with handler 0 opening,
handler 0 holds the registry mutex. -/
theorem c1_dedup_witness : c1S2.lock = some 0 := by
  have st1 : AStep c1KeyOf (.acquire 0) AInit c1S1 :=
    AStep.acquire 0 AInit rfl rfl
  have st2 : AStep c1KeyOf (.missOpen 0) c1S1 c1S2 :=
    AStep.missOpen 0 c1S1 rfl (by simp [c1S1, AInit, Function.update]) rfl
  have hr : AReach c1KeyOf c1S2 :=
    Relation.ReflTransGen.tail
      (Relation.ReflTransGen.tail Relation.ReflTransGen.refl ⟨_, st1⟩) ⟨_, st2⟩
  exact (c1_dedup c1KeyOf c1S2 hr).1 0 (by simp [c1S2, c1S1, AInit, Function.update])

/-- Phase of one handler's downstream response in `handle_getstream` after
validation: response object built (line 294), prepared (line 301), attached
to the subscriber set (line 307).  The source orders these statements
prepare-then-attach. -/
inductive RPhase
  | built
  | prepped
  | attached
  deriving DecidableEq

/-- Global state for the write-before-prepare protocol: each handler's
response phase, which responses have been prepared, and the session's
subscriber set (the producer writes only to members, line 196-198). -/
structure BState where
  phase : Nat → RPhase
  prepared : Nat → Bool
  clients : Nat → Bool

/-- Transition labels: handler prepares its response, handler attaches it,
producer writes a chunk to a subscriber, producer or handler removes a
subscriber. -/
inductive BLabel
  | prepare (h : Nat)
  | attach (h : Nat)
  | write (h : Nat)
  | evict (h : Nat)

/-- Small-step semantics: `prepare` is line 301 (`await response.prepare`),
`attach` is line 307 (`ongoing.clients.add(response)`) and is enabled only
after `prepare` by the handler's program order, `write` is line 198
(`await client_response.write(chunk)`) and requires membership in the
subscriber set, `evict` is any of lines 182, 211, 329, 348. -/
inductive BStep : BLabel → BState → BState → Prop
  | prepare (h : Nat) (s : BState) :
      s.phase h = .built →
      BStep (.prepare h) s
        { s with phase := Function.update s.phase h .prepped,
                 prepared := Function.update s.prepared h true }
  | attach (h : Nat) (s : BState) :
      s.phase h = .prepped →
      BStep (.attach h) s
        { s with phase := Function.update s.phase h .attached,
                 clients := Function.update s.clients h true }
  | write (h : Nat) (s : BState) :
      s.clients h = true →
      BStep (.write h) s s
  | evict (h : Nat) (s : BState) :
      BStep (.evict h) s { s with clients := Function.update s.clients h false }

/-- Initial state: all responses built, none prepared, no subscribers. -/
def BInit : BState :=
  { phase := fun _ => .built, prepared := fun _ => false, clients := fun _ => false }

/-- Reachability of the write-before-prepare protocol. -/
def BReach (s : BState) : Prop :=
  Relation.ReflTransGen (fun a b => ∃ l, BStep l a b) BInit s

theorem bstep_clients_prepared (s : BState) (hr : BReach s) :
    ∀ h, (s.phase h ≠ .built → s.prepared h = true) ∧
      (s.clients h = true → s.prepared h = true) := by
  induction hr with
  | refl =>
    intro h
    exact ⟨fun hp => absurd rfl hp, fun hc => by simp [BInit] at hc⟩
  | tail hst hstep ih =>
    rcases hstep with ⟨l, hstep⟩
    cases hstep with
    | prepare h2 s2 hp =>
      intro h
      by_cases he : h = h2
      · subst he
        constructor
        · intro _
          simp [Function.update]
        · intro _
          simp [Function.update]
      · constructor
        · intro hph
          simp only [Function.update, dif_neg he] at hph ⊢
          exact (ih h).1 hph
        · intro hc
          simp only [Function.update, dif_neg he]
          exact (ih h).2 hc
    | attach h2 s2 hp =>
      intro h
      by_cases he : h = h2
      · subst he
        exact ⟨fun _ => (ih h).1 (by rw [hp]; simp),
               fun _ => (ih h).1 (by rw [hp]; simp)⟩
      · constructor
        · intro hph
          simp only [Function.update, dif_neg he] at hph
          exact (ih h).1 hph
        · intro hc
          simp only [Function.update, dif_neg he] at hc
          exact (ih h).2 hc
    | write h2 s2 hc => exact ih
    | evict h2 s2 =>
      intro h
      by_cases he : h = h2
      · subst he
        constructor
        · intro hph
          exact (ih h).1 hph
        · intro hc
          simp [Function.update] at hc
      · constructor
        · intro hph
          exact (ih h).1 hph
        · intro hc
          simp only [Function.update, dif_neg he] at hc
          exact (ih h).2 hc

/-- C9: in every reachable state, every member of the subscriber set has a
prepared response; a `write` step only ever targets a subscriber-set member,
hence a prepared response; and the `attach` step (line 307) is enabled only
when the handler has already prepared its response (line 301 precedes it in
program order) — so the producer never writes to a subscriber whose response
has not been prepared. -/
theorem c9_prepare_before_attach (s : BState) (hr : BReach s) :
    (∀ h, s.clients h = true → s.prepared h = true) ∧
    (∀ h s2, BStep (.write h) s s2 → s.clients h = true ∧ s.prepared h = true) ∧
    (∀ h s2, BStep (.attach h) s s2 → s.prepared h = true) := by
  refine ⟨fun h => (bstep_clients_prepared s hr h).2, ?_, ?_⟩
  · intro h s2 hstep
    cases hstep with
    | write h2 s2 hc => exact ⟨hc, (bstep_clients_prepared s hr h).2 hc⟩
  · intro h s2 hstep
    cases hstep with
    | attach h2 s2 hp =>
      exact (bstep_clients_prepared s hr h).1 (by rw [hp]; simp)

/-- Concrete trace for the C9 witness: handler 0 prepares then attaches. -/
def c9S1 : BState :=
  { BInit with phase := Function.update BInit.phase 0 .prepped,
               prepared := Function.update BInit.prepared 0 true }

def c9S2 : BState :=
  { c9S1 with phase := Function.update c9S1.phase 0 .attached,
              clients := Function.update c9S1.clients 0 true }

/-- C9 witness: in the concrete reachable state where handler 0 is in the
subscriber set, its response is prepared. -/
theorem c9_prepare_before_attach_witness : c9S2.prepared 0 = true := by
  have st1 : BStep (.prepare 0) BInit c9S1 := BStep.prepare 0 BInit rfl
  have st2 : BStep (.attach 0) c9S1 c9S2 :=
    BStep.attach 0 c9S1 (by simp [c9S1, BInit, Function.update])
  have hr : BReach c9S2 :=
    Relation.ReflTransGen.tail
      (Relation.ReflTransGen.tail Relation.ReflTransGen.refl ⟨_, st1⟩) ⟨_, st2⟩
  exact (c9_prepare_before_attach c9S2 hr).1 0 (by simp [c9S2, c9S1, BInit, Function.update])
